import Mathlib

/-!
Verification of the zotify download-orchestration pipeline (`zotify/app.py`).

The Python source is shallowly embedded: pure string manipulation is translated
directly (Python `str.split`, `str.rsplit`, negative indexing, `str.replace`
become Lean functions over `List Char` / `String`), the insertion-ordered
Python `dict` becomes an association list with append-at-end insertion, and the
effectful per-item download loop becomes a step function over an oracle record
(`ItemBehavior`) describing what each external call would do (which exception,
if any, each stage raises; whether the file exists; whether batch metadata is
present).  Python exceptions become an explicit exception type threaded through
`Except` / result variants.
-/

namespace Zotify

/-! ## Data model (`zotify/playable.py` attributes as used by `app.py`) -/

/-- Playable kinds distinguished by `download_all` (`PlayableType` in
`zotify/utils.py`; only TRACK and EPISODE are handled, anything else hits the
"Unknown playable content" branch). -/
inductive PlayableType
  | track
  | episode
  | unknown
  deriving DecidableEq, Repr

/-- One entry of `playable.metadata`: a named field whose value may be absent
(`meta.string is not None` guards the substitution in `app.py`). -/
structure MetadataEntry where
  name : String
  string : Option String
  deriving DecidableEq, Repr

/-- The attributes of a playable that `App.download_all` reads:
`id`, `type`, `output_template`, `library`, `metadata`. -/
structure Playable where
  id : String
  type : PlayableType
  output_template : String
  library : String
  metadata : List MetadataEntry
  deriving DecidableEq, Repr

/-- A resolved collection; `download_all` only reads `collection.playables`. -/
structure Collection where
  playables : List Playable
  deriving DecidableEq, Repr

/-! ## Association lists (model of the insertion-ordered Python `dict`) -/

/-- Lookup in an association list: the value of the first entry whose key
matches (Python `d[k]` / `k in d`). -/
def alookup (k : String) : List (String × α) → Option α
  | [] => none
  | e :: es => if e.1 = k then some e.2 else alookup k es

/-- Number of entries carrying a given key (a real `dict` always has 0 or 1). -/
def countKey (k : String) (m : List (String × α)) : Nat :=
  m.countP fun e => e.1 == k

/-! ## Identifier parser (`App.parse`, `app.py` lines 217-242) -/

/-- Python exceptions that can escape `App.parse`: the `ParseError` it raises
itself, and the `KeyError` from `collection_types[id_type]` when `id_type` is
not a key of the dict (the surrounding `except ValueError` does NOT catch
`KeyError`). -/
inductive PyExc
  | parseError (msg : String)
  | keyError (key : String)
  deriving DecidableEq, Repr

/-- Python `link.rsplit("?", 1)[0]`: everything before the last `?`, or the
whole string when it has no `?`. -/
def stripQuery (s : List Char) : List Char :=
  if '?' ∈ s then ((s.reverse.dropWhile fun c => c ≠ '?').drop 1).reverse
  else s

/-- Python `str.split(sep)` for a one-character separator: split on every
occurrence, keeping empty pieces; always returns at least one piece. -/
def splitOnChar (sep : Char) : List Char → List (List Char)
  | [] => [[]]
  | c :: cs =>
    match splitOnChar sep cs with
    | [] => [[]]
    | r :: rs => if c = sep then [] :: r :: rs else (c :: r) :: rs

/-- The keys of the `collection_types` dict in `App.parse`. -/
def recognizedKinds : List String :=
  ["album", "artist", "show", "track", "episode", "playlist"]

/-- One iteration of the loop in `App.parse`:
strip the trailing query component, split on the character 23 positions from
the end (`link[-23]`, IndexError → `ParseError` when the stripped link is
shorter than 23), take the last two pieces as `(id_type, _id)`, then look
`id_type` up in `collection_types` — a missing key raises `KeyError`, which the
`except ValueError` handler does not catch.  The collection constructor itself
performs only network reads and is modelled as succeeding. -/
def parseLink (link : String) : Except PyExc (String × String) :=
  let l := stripQuery link.data
  if h : l.length < 23 then
    .error (.parseError ("Could not parse \"" ++ l.asString ++ "\""))
  else
    let sep := l.get ⟨l.length - 23, by omega⟩
    let parts := splitOnChar sep l
    if parts.length < 2 then
      .error (.parseError ("Could not parse \"" ++ l.asString ++ "\""))
    else
      let _id := (parts.getLastD []).asString
      let idType := (parts.getD (parts.length - 2) []).asString
      if idType ∈ recognizedKinds then .ok (idType, _id)
      else .error (.keyError idType)

/-- The full `App.parse` loop: references are parsed in order and the first
raised exception propagates, discarding all other references. -/
def parseLinks : List String → Except PyExc (List (String × String))
  | [] => .ok []
  | link :: rest =>
    match parseLink link with
    | .error e => .error e
    | .ok c =>
      match parseLinks rest with
      | .error e => .error e
      | .ok cs => .ok (c :: cs)

/-- Exit behavior of `App.__init__` around `parse` (`app.py` lines 176-187):
`ParseError` is caught and the process exits with code 1; a `KeyError`
propagates uncaught (no exit code, modelled as `none`); on success the
collections are downloaded and the process exits 0. -/
def appExit (links : List String) : Option Nat :=
  match parseLinks links with
  | .ok _ => some 0
  | .error (.parseError _) => some 1
  | .error (.keyError _) => none

/-! ## Deduplicator (`App.download_all` step 1, `app.py` lines 244-262) -/

/-- Whether a playable enters `playable_map` at all (the two `if`/`elif` arms
of the dedup loop). -/
def isDownloadable (p : Playable) : Bool :=
  match p.type with
  | .track => true
  | .episode => true
  | .unknown => false

/-- Python `playable_map[p.id].append(p)` for an id already present: the entry
keeps its position and its occurrence list grows at the end. -/
def mapAppend (m : List (String × List Playable)) (p : Playable) :
    List (String × List Playable) :=
  m.map fun e => if e.1 = p.id then (e.1, e.2 ++ [p]) else e

/-- The three accumulators of the dedup loop: `track_ids`, `episode_ids` and
`playable_map`. -/
structure DedupState where
  track_ids : List String
  episode_ids : List String
  playable_map : List (String × List Playable)
  deriving Repr

/-- One iteration of the dedup loop body: a first-seen track/episode id is
appended to its id list and gets a fresh one-element map entry at the end of
the dict; a recurrence only appends to the existing entry's list. -/
def dedupStep (s : DedupState) (p : Playable) : DedupState :=
  match p.type with
  | .track =>
    if (alookup p.id s.playable_map).isSome then
      { s with playable_map := mapAppend s.playable_map p }
    else
      { s with
          track_ids := s.track_ids ++ [p.id],
          playable_map := s.playable_map ++ [(p.id, [p])] }
  | .episode =>
    if (alookup p.id s.playable_map).isSome then
      { s with playable_map := mapAppend s.playable_map p }
    else
      { s with
          episode_ids := s.episode_ids ++ [p.id],
          playable_map := s.playable_map ++ [(p.id, [p])] }
  | .unknown => s

/-- The nested `for collection in collections: for playable in
collection.playables:` loop. -/
def collectPlayables (collections : List Collection) : DedupState :=
  collections.foldl (fun s c => c.playables.foldl dedupStep s) ⟨[], [], []⟩

/-- The playables of all collections, flattened in input order. -/
def allPlayables (collections : List Collection) : List Playable :=
  (collections.map Collection.playables).flatten

/-- The occurrences of one id among the downloadable playables, in input
order. -/
def occIn (i : String) (ps : List Playable) : List Playable :=
  ps.filter fun p => isDownloadable p && (p.id == i)

/-- `items_to_process` (`app.py` lines 289-293): the dict items in insertion
(first-seen) order, reversed in place when the `--reverse` flag is set. -/
def itemsToProcess (reverse : Bool) (collections : List Collection) :
    List (String × List Playable) :=
  let items := (collectPlayables collections).playable_map
  if reverse then items.reverse else items

/-! ## Metadata batcher (`App.download_all`, `app.py` lines 264-280) -/

/-- A batch-metadata record as used by `download_all`: the fields read from
`track_info` / `episode_info` are `"id"` and `"name"`. -/
structure MetaInfo where
  id : String
  name : String
  deriving DecidableEq, Repr

/-- Python `for i in range(0, len(ids), 50): batch = ids[i:i+50]`:
the successive 50-element slices of the id list. -/
def chunks : List α → List (List α)
  | [] => []
  | x :: xs => (x :: xs).take 50 :: chunks ((x :: xs).drop 50)
termination_by l => l.length
decreasing_by
  simp only [List.length_drop, List.length_cons]
  omega

/-- Python dict assignment `m[k] = v`: replace the value at an existing key in
place, otherwise append a new entry at the end. -/
def dictInsert (m : List (String × α)) (k : String) (v : α) :
    List (String × α) :=
  if (alookup k m).isSome then
    m.map fun e => if e.1 = k then (k, v) else e
  else m ++ [(k, v)]

/-- The body of `for track_info in result["tracks"]`: a `None` placeholder
(unavailable id) is dropped, anything else is stored under its own `"id"`
field. -/
def insertInfo (m : List (String × MetaInfo)) (r : Option MetaInfo) :
    List (String × MetaInfo) :=
  match r with
  | some info => dictInsert m info.id info
  | none => m

/-- Merging one batch response into the accumulated metadata mapping. -/
def mergeResponse (m : List (String × MetaInfo)) (resp : List (Option MetaInfo)) :
    List (String × MetaInfo) :=
  resp.foldl insertInfo m

/-- The whole batching loop.  `remote` is the external collaborator: the
response to a batch request `ids=a,b,c` is one entry per requested id, `None`
for unavailable ids.  Returns the merged mapping together with the list of
issued remote calls (one per batch). -/
def batchMetadata (remote : String → Option MetaInfo) (ids : List String) :
    List (String × MetaInfo) × List (List String) :=
  (chunks ids).foldl
    (fun acc batch => (mergeResponse acc.1 (batch.map remote), acc.2 ++ [batch]))
    ([], [])

/-! ## Output-template rendering (`app.py` lines 310-339) -/

/-- Characters a sanitized filename component may not contain (path separators
and file-system-reserved characters). -/
def reservedChars : List Char :=
  ['/', '\\', ':', '*', '?', '\"', '<', '>', '|']

/-- Modelled from the spec: `fix_filename` is imported from `zotify/utils.py`,
which is not among the sources here.  Section 3 of the design (ResolvedPath)
says a sanitize step runs on every substituted value so that path separators
and file-system-reserved characters from metadata are never embedded
unfiltered; the replacement character is modelled as an underscore. -/
def fix_filename (s : String) : String :=
  ⟨s.data.map fun c => if c ∈ reservedChars then '_' else c⟩

/-- Sanitizing one metadata entry's value. -/
def sanitizeEntry (m : MetadataEntry) : MetadataEntry :=
  { m with string := m.string.map fix_filename }

/-- The track branch of the existence prechecker's rendering (lines 310-318):
each present metadata value, then the joined artists string, then the title
are substituted for their placeholders, each through `fix_filename`. -/
def renderTrackTemplate (template : String) (metadata : List MetadataEntry)
    (artists trackName : String) : String :=
  let t := metadata.foldl
    (fun acc meta =>
      match meta.string with
      | some s => acc.replace ("\x7b" ++ meta.name ++ "\x7d") (fix_filename s)
      | none => acc)
    template
  let t := t.replace "\x7bartists\x7d" (fix_filename artists)
  t.replace "\x7btitle\x7d" (fix_filename trackName)

/-- The same substitutions with the values embedded raw (no sanitizer); used
to state that the real renderer factors through `fix_filename`. -/
def renderTrackTemplateRaw (template : String) (metadata : List MetadataEntry)
    (artists trackName : String) : String :=
  let t := metadata.foldl
    (fun acc meta =>
      match meta.string with
      | some s => acc.replace ("\x7b" ++ meta.name ++ "\x7d") s
      | none => acc)
    template
  let t := t.replace "\x7bartists\x7d" artists
  t.replace "\x7btitle\x7d" trackName

/-- The episode branch of the rendering (lines 330-337): metadata fields and
the title only. -/
def renderEpisodeTemplate (template : String) (metadata : List MetadataEntry)
    (episodeName : String) : String :=
  let t := metadata.foldl
    (fun acc meta =>
      match meta.string with
      | some s => acc.replace ("\x7b" ++ meta.name ++ "\x7d") (fix_filename s)
      | none => acc)
    template
  t.replace "\x7btitle\x7d" (fix_filename episodeName)

/-- Raw (unsanitized) variant of the episode rendering. -/
def renderEpisodeTemplateRaw (template : String) (metadata : List MetadataEntry)
    (episodeName : String) : String :=
  let t := metadata.foldl
    (fun acc meta =>
      match meta.string with
      | some s => acc.replace ("\x7b" ++ meta.name ++ "\x7d") s
      | none => acc)
    template
  t.replace "\x7btitle\x7d" episodeName

/-! ## Per-item download pipeline (`App.download_all`, `app.py` lines 295-448)

The loop body is embedded as a step function over an `ItemBehavior` oracle
describing what the external collaborators would do for that item.  Python
exception classes relevant to the handlers in the loop are enumerated in
`Exc`; every constructor models a subclass of `Exception`, so the bare
`except Exception` around the existence precheck catches all of them, while
the narrower handlers catch exactly the constructor they name. -/

/-- Exception classes distinguished by the handlers in `download_all`. -/
inductive Exc
  | runtimeError
  | fileExistsError
  | fileNotFoundError
  | transcodingError
  | osError
  | keyError
  deriving DecidableEq, Repr

/-- Audio formats (`AudioFormat` in `zotify/utils.py`); the transcode stage is
gated on the configured format not being VORBIS. -/
inductive AudioFormat
  | vorbis
  | mp3
  | flac
  | aac
  | opus
  | wav
  | wavpack
  deriving DecidableEq, Repr

/-- The configuration and session facts the loop reads:
`config.lyrics_file`, `config.save_metadata`, `config.audio_format`,
`config.ffmpeg_args`, and `session.is_premium()` (as `premium`). -/
structure Config where
  lyrics_file : Bool
  save_metadata : Bool
  premium : Bool
  audio_format : AudioFormat
  ffmpeg_args : String
  deriving DecidableEq, Repr

/-- Calls on external collaborators made by the loop body, in order.
`fetchStream` is `session.get_track` / `session.get_episode` — the call that
performs the audio-key negotiation. -/
inductive Event
  | fetchStream (id : String)
  | createOutput
  | writeStream
  | lyricsFetch
  | transcode
  | writeTags
  deriving DecidableEq, Repr

/-- Terminal outcomes of one item's pipeline, mirroring the log lines of the
loop body. -/
inductive Outcome
  | notAvailable (msg : String)
  | unknownType
  | alreadyExists (msg : String)
  | errorChecking (e : Exc)
  | fetchSkipped (e : Exc)
  | existsAtOutput
  | downloaded
  deriving DecidableEq, Repr

/-- Oracle for one unique work item: the data `download_all` reads about it and
the exception (if any) each external call would raise.  `existsAt ext` is
`expected_path.with_suffix(ext).exists()`; `precheckExc` is an exception
raised anywhere inside the `try` block around template rendering and the
existence test. -/
structure ItemBehavior where
  id : String
  ptype : PlayableType
  displayName : String
  dupCount : Nat
  metadataPresent : Bool
  precheckExc : Option Exc
  existsAt : String → Bool
  fetchExc : Option Exc
  createExc : Option Exc
  writeExc : Option Exc
  lyricsExc : Option Exc
  transcodeExc : Option Exc
  tagExc : Option Exc

/-- The `common_extensions` list scanned by the existence precheck. -/
def commonExtensions : List String :=
  [".wav", ".mp3", ".ogg", ".flac", ".m4a", ".wv"]

/-- Python `f" ({dup_count}x in playlist)" if dup_count > 1 else ""`. -/
def dupMsg (n : Nat) : String :=
  if 1 < n then " (" ++ toString n ++ "x in playlist)" else ""

/-- The skip message logged when the id has no batch-metadata record. -/
def notAvailableMsg (b : ItemBehavior) : String :=
  match b.ptype with
  | .track => "Track " ++ b.id ++ " not available"
  | _ => "Episode " ++ b.id ++ " not available"

/-- The skip message logged when the rendered path already exists. -/
def alreadyExistsMsg (b : ItemBehavior) : String :=
  "Skipping \"" ++ b.displayName ++ "\": Already exists" ++ dupMsg b.dupCount

/-- The `try` block of `app.py` lines 300-369 (metadata-missing test, template
rendering, existence scan, with `except Exception` converting any raised
exception into a logged skip).  Returns `some o` when the item terminates
inside this block, `none` when it falls through to the fetch stage. -/
def precheck (b : ItemBehavior) : Option Outcome :=
  match b.ptype with
  | .unknown => some .unknownType
  | _ =>
    if b.metadataPresent = false then some (.notAvailable (notAvailableMsg b))
    else
      match b.precheckExc with
      | some e => some (.errorChecking e)
      | none =>
        if commonExtensions.any b.existsAt then
          some (.alreadyExists (alreadyExistsMsg b))
        else none

/-- Lyrics stage (lines 410-422): gated on track kind and `lyrics_file`; a
non-premium session only logs; otherwise the lyrics call is made and only
`FileNotFoundError` is caught. -/
def lyricsStage (cfg : Config) (b : ItemBehavior) : List Event × Option Exc :=
  if b.ptype = PlayableType.track ∧ cfg.lyrics_file then
    if cfg.premium = false then ([], none)
    else
      match b.lyricsExc with
      | some e =>
        if e = Exc.fileNotFoundError then ([.lyricsFetch], none)
        else ([.lyricsFetch], some e)
      | none => ([.lyricsFetch], none)
  else ([], none)

/-- Transcode stage (lines 426-440): gated on a non-VORBIS target format or
custom ffmpeg args; only `TranscodingError` is caught (logged as an error). -/
def transcodeStage (cfg : Config) (b : ItemBehavior) : List Event × Option Exc :=
  if cfg.audio_format ≠ AudioFormat.vorbis ∨ cfg.ffmpeg_args ≠ "" then
    match b.transcodeExc with
    | some e =>
      if e = Exc.transcodingError then ([.transcode], none)
      else ([.transcode], some e)
    | none => ([.transcode], none)
  else ([], none)

/-- Tag-writing stage (lines 443-448): gated on `save_metadata`; nothing is
caught. -/
def tagStage (cfg : Config) (b : ItemBehavior) : List Event × Option Exc :=
  if cfg.save_metadata then
    match b.tagExc with
    | some e => ([.writeTags], some e)
    | none => ([.writeTags], none)
  else ([], none)

/-- Result of one iteration of the item loop: either a terminal outcome (the
loop continues with the next item) or an uncaught exception (the whole
`download_all` call aborts). -/
inductive ItemResult
  | completed (o : Outcome) (events : List Event)
  | aborted (e : Exc) (events : List Event)
  deriving Repr

/-- The whole loop body for one unique work item, stage by stage:
existence precheck (everything caught), stream fetch (`except RuntimeError`),
output creation (`except FileExistsError`), stream write (nothing caught),
lyrics, transcode, tag write. -/
def processItem (cfg : Config) (b : ItemBehavior) : ItemResult :=
  match precheck b with
  | some o => .completed o []
  | none =>
    match b.fetchExc with
    | some e =>
      if e = Exc.runtimeError then .completed (.fetchSkipped e) [.fetchStream b.id]
      else .aborted e [.fetchStream b.id]
    | none =>
      match b.createExc with
      | some e =>
        if e = Exc.fileExistsError then
          .completed .existsAtOutput [.fetchStream b.id, .createOutput]
        else .aborted e [.fetchStream b.id, .createOutput]
      | none =>
        match b.writeExc with
        | some e => .aborted e [.fetchStream b.id, .createOutput, .writeStream]
        | none =>
          match lyricsStage cfg b with
          | (lev, some e) =>
            .aborted e ([.fetchStream b.id, .createOutput, .writeStream] ++ lev)
          | (lev, none) =>
            match transcodeStage cfg b with
            | (tev, some e) =>
              .aborted e
                ([.fetchStream b.id, .createOutput, .writeStream] ++ lev ++ tev)
            | (tev, none) =>
              match tagStage cfg b with
              | (gev, some e) =>
                .aborted e
                  ([.fetchStream b.id, .createOutput, .writeStream] ++ lev ++ tev ++ gev)
              | (gev, none) =>
                .completed .downloaded
                  ([.fetchStream b.id, .createOutput, .writeStream] ++ lev ++ tev ++ gev)

/-- Is an event a stream-fetch (audio-key negotiation) call? -/
def isFetchEvent : Event → Bool
  | .fetchStream _ => true
  | _ => false

/-- Number of stream-fetch calls an item's pipeline performed. -/
def fetchCalls : ItemResult → Nat
  | .completed _ evs => evs.countP isFetchEvent
  | .aborted _ evs => evs.countP isFetchEvent

/-- Result of the whole `for item_id, playables in items_to_process:` loop:
either every item reached a terminal outcome, or an uncaught exception aborted
the loop, with the outcomes of the items processed before the abort. -/
inductive RunResult
  | finished (outs : List (Outcome × List Event))
  | aborted (outs : List (Outcome × List Event)) (e : Exc)
  deriving Repr

/-- Sequential processing of the unique work items. -/
def runItems (cfg : Config) : List ItemBehavior → RunResult
  | [] => .finished []
  | b :: bs =>
    match processItem cfg b with
    | .aborted e _ => .aborted [] e
    | .completed o evs =>
      match runItems cfg bs with
      | .finished rest => .finished ((o, evs) :: rest)
      | .aborted rest e => .aborted ((o, evs) :: rest) e

/-- An item whose stage failures are all of the kinds the loop's handlers
anticipate: any fetch failure is a `RuntimeError`, any output-creation failure
is a `FileExistsError`, the stream write succeeds, any lyrics failure is a
`FileNotFoundError`, any transcode failure is a `TranscodingError`, and the
tag write succeeds.  (The precheck stage anticipates every exception.) -/
def anticipatedOnly (b : ItemBehavior) : Prop :=
  (b.fetchExc = none ∨ b.fetchExc = some Exc.runtimeError)
  ∧ (b.createExc = none ∨ b.createExc = some Exc.fileExistsError)
  ∧ b.writeExc = none
  ∧ (b.lyricsExc = none ∨ b.lyricsExc = some Exc.fileNotFoundError)
  ∧ (b.transcodeExc = none ∨ b.transcodeExc = some Exc.transcodingError)
  ∧ b.tagExc = none

/-! ## Concrete fixtures for witnesses and counterexamples -/

/-- A configuration with every optional stage disabled. -/
def cfg0 : Config :=
  { lyrics_file := false, save_metadata := false, premium := false,
    audio_format := .vorbis, ffmpeg_args := "" }

/-- A well-behaved track item: metadata present, file absent, every stage
succeeds. -/
def itemBase : ItemBehavior :=
  { id := "AAA", ptype := .track, displayName := "Song", dupCount := 1,
    metadataPresent := true, precheckExc := none, existsAt := fun _ => false,
    fetchExc := none, createExc := none, writeExc := none,
    lyricsExc := none, transcodeExc := none, tagExc := none }

/-- An item whose stream-write stage raises an `OSError` (uncaught). -/
def itemWriteFail : ItemBehavior := { itemBase with writeExc := some .osError }

/-- A second well-behaved item. -/
def itemGood : ItemBehavior := { itemBase with id := "BBB", displayName := "Other" }

/-- An item that already exists on disk as an `.ogg`, occurring twice. -/
def itemExisting : ItemBehavior :=
  { itemBase with
      id := "CCC"
      displayName := "Dup"
      dupCount := 2
      existsAt := fun e => e == ".ogg" }

/-- An item whose id has no batch-metadata record. -/
def itemNoMeta : ItemBehavior :=
  { itemBase with id := "DDD", metadataPresent := false }

/-- An item whose existence precheck raises an `OSError`. -/
def itemPrecheckFail : ItemBehavior :=
  { itemBase with id := "EEE", precheckExc := some .osError }

/-- A concrete track playable. -/
def trackA : Playable :=
  { id := "AAA", type := .track, output_template := "first",
    library := "lib", metadata := [] }

/-- A second occurrence of the same id with a different template. -/
def trackA2 : Playable := { trackA with output_template := "second" }

/-- A distinct track. -/
def trackB : Playable := { trackA with id := "BBB" }

/-- Two collections in which id AAA occurs twice across collections. -/
def colls0 : List Collection := [⟨[trackA, trackB]⟩, ⟨[trackA2]⟩]

/-! ## Association-list lemmas -/

theorem alookup_append_single (i k : String) (v : α) (m : List (String × α)) :
    alookup i (m ++ [(k, v)]) =
      match alookup i m with
      | some l => some l
      | none => if k = i then some v else none := by
  induction m with
  | nil => simp [alookup]
  | cons e es ih => by_cases h : e.1 = i <;> simp [alookup, h, ih]

theorem alookup_mapAppend (m : List (String × List Playable)) (p : Playable)
    (i : String) :
    alookup i (mapAppend m p) =
      if p.id = i then (alookup i m).map (· ++ [p]) else alookup i m := by
  induction m with
  | nil => by_cases h : p.id = i <;> simp [alookup, mapAppend, h]
  | cons e es ih =>
    simp only [mapAppend, List.map_cons] at ih ⊢
    by_cases hpi : p.id = i
    · rw [if_pos hpi]
      by_cases h1 : e.1 = p.id
      · rw [if_pos h1]
        have h2 : e.1 = i := h1.trans hpi
        simp [alookup, h2]
      · rw [if_neg h1]
        have h2 : ¬ e.1 = i := fun hh => h1 (hh.trans hpi.symm)
        simp [alookup, h2, ih, if_pos hpi]
    · rw [if_neg hpi]
      by_cases h1 : e.1 = p.id
      · rw [if_pos h1]
        have h2 : ¬ e.1 = i := fun hh => hpi (h1.symm.trans hh)
        simp [alookup, h2, ih, if_neg hpi]
      · rw [if_neg h1]
        by_cases h2 : e.1 = i
        · simp [alookup, h2]
        · simp [alookup, h2, ih, if_neg hpi]

theorem alookup_map_update (m : List (String × α)) (k i : String) (v : α) :
    alookup i (m.map fun e => if e.1 = k then (k, v) else e) =
      if k = i then (alookup i m).map (fun _ => v) else alookup i m := by
  induction m with
  | nil => by_cases h : k = i <;> simp [alookup, h]
  | cons e es ih =>
    simp only [List.map_cons] at ih ⊢
    by_cases hki : k = i
    · rw [if_pos hki]
      by_cases h1 : e.1 = k
      · rw [if_pos h1]
        have h2 : k = i := hki
        simp [alookup, hki, h1.trans hki]
      · rw [if_neg h1]
        have h2 : ¬ e.1 = i := fun hh => h1 (hh.trans hki.symm)
        simp [alookup, h2, ih, if_pos hki]
    · rw [if_neg hki]
      by_cases h1 : e.1 = k
      · rw [if_pos h1]
        have h2 : ¬ e.1 = i := fun hh => hki (h1.symm.trans hh)
        simp only [alookup, h2, if_neg h2, if_neg hki] at ih ⊢
        rw [ih]
        have h3 : ¬ k = i := hki
        simp [h3]
      · rw [if_neg h1]
        by_cases h2 : e.1 = i
        · simp [alookup, h2]
        · simp [alookup, h2, ih, if_neg hki]

theorem alookup_dictInsert (m : List (String × α)) (k i : String) (v : α) :
    alookup i (dictInsert m k v) = if k = i then some v else alookup i m := by
  unfold dictInsert
  by_cases hp : (alookup k m).isSome
  · rw [if_pos hp, alookup_map_update]
    by_cases hk : k = i
    · subst hk
      obtain ⟨l, hl⟩ := Option.isSome_iff_exists.mp hp
      simp [hl]
    · simp [hk]
  · rw [if_neg hp, alookup_append_single]
    by_cases hk : k = i
    · subst hk
      have hnone : alookup k m = none := Option.not_isSome_iff_eq_none.mp hp
      simp [hnone]
    · cases hm : alookup i m <;> simp [hm, hk]

theorem alookup_eq_none_iff (i : String) (m : List (String × α)) :
    alookup i m = none ↔ countKey i m = 0 := by
  induction m with
  | nil => simp [alookup, countKey]
  | cons e es ih =>
    by_cases h : e.1 = i <;>
      simp_all [alookup, countKey, List.countP_cons]

theorem countKey_mapAppend (m : List (String × List Playable)) (p : Playable)
    (i : String) :
    countKey i (mapAppend m p) = countKey i m := by
  induction m with
  | nil => simp [mapAppend, countKey]
  | cons e es ih =>
    by_cases h : e.1 = p.id <;>
      simp_all [mapAppend, countKey, List.countP_cons]

theorem countKey_append_single (i k : String) (v : α) (m : List (String × α)) :
    countKey i (m ++ [(k, v)]) =
      countKey i m + if k = i then 1 else 0 := by
  by_cases h : k = i <;> simp [countKey, List.countP_append, List.countP_cons, h]

/-! ## Deduplicator lemmas -/

theorem occIn_cons (i : String) (p : Playable) (ps : List Playable) :
    occIn i (p :: ps) =
      if isDownloadable p && (p.id == i) then p :: occIn i ps
      else occIn i ps := by
  by_cases h : isDownloadable p && (p.id == i) <;> simp [occIn, List.filter_cons, h]

theorem alookup_dedupStep (s : DedupState) (p : Playable) (i : String) :
    alookup i (dedupStep s p).playable_map =
      if isDownloadable p && (p.id == i) then
        some ((alookup i s.playable_map).getD [] ++ [p])
      else alookup i s.playable_map := by
  obtain ⟨pid, pty, ptm, plb, pmd⟩ := p
  cases pty <;> simp only [dedupStep, isDownloadable]
  case track | episode =>
    by_cases hin : (alookup pid s.playable_map).isSome
    · rw [if_pos hin]
      simp only [alookup_mapAppend, Bool.true_and]
      by_cases hpi : pid = i
      · subst hpi
        obtain ⟨l, hl⟩ := Option.isSome_iff_exists.mp hin
        simp [hl]
      · simp [hpi, beq_iff_eq]
    · rw [if_neg hin]
      simp only [alookup_append_single, Bool.true_and]
      by_cases hpi : pid = i
      · subst hpi
        have hnone : alookup pid s.playable_map = none :=
          Option.not_isSome_iff_eq_none.mp hin
        simp [hnone]
      · cases hm : alookup i s.playable_map <;> simp [hm, hpi, beq_iff_eq]
  case unknown => simp

theorem countKey_dedupStep_le (s : DedupState) (p : Playable) (i : String)
    (h : countKey i s.playable_map ≤ 1) :
    countKey i (dedupStep s p).playable_map ≤ 1 := by
  obtain ⟨pid, pty, ptm, plb, pmd⟩ := p
  cases pty <;> simp only [dedupStep]
  case track | episode =>
    by_cases hin : (alookup pid s.playable_map).isSome
    · rw [if_pos hin]; simpa [countKey_mapAppend] using h
    · rw [if_neg hin]
      simp only [countKey_append_single]
      by_cases hpi : pid = i
      · subst hpi
        have hnone : alookup pid s.playable_map = none :=
          Option.not_isSome_iff_eq_none.mp hin
        have h0 : countKey pid s.playable_map = 0 :=
          (alookup_eq_none_iff pid s.playable_map).mp hnone
        simp [h0]
      · simp [hpi, h]
  case unknown => exact h

theorem alookup_foldl_dedupStep (ps : List Playable) (s : DedupState)
    (i : String) :
    alookup i (ps.foldl dedupStep s).playable_map =
      if alookup i s.playable_map = none ∧ occIn i ps = [] then none
      else some ((alookup i s.playable_map).getD [] ++ occIn i ps) := by
  induction ps generalizing s with
  | nil => cases h : alookup i s.playable_map <;> simp [occIn, h]
  | cons p ps ih =>
    rw [List.foldl_cons, ih, alookup_dedupStep, occIn_cons]
    by_cases hc : isDownloadable p && (p.id == i)
    · rw [if_pos hc, if_pos hc]
      cases h : alookup i s.playable_map <;> simp [h]
    · rw [if_neg hc, if_neg hc]

theorem countKey_foldl_dedupStep_le (ps : List Playable) (s : DedupState)
    (i : String) (h : countKey i s.playable_map ≤ 1) :
    countKey i (ps.foldl dedupStep s).playable_map ≤ 1 := by
  induction ps generalizing s with
  | nil => exact h
  | cons p ps ih => exact ih _ (countKey_dedupStep_le s p i h)

theorem collectPlayables_eq_foldl_aux (cs : List Collection) (s : DedupState) :
    cs.foldl (fun s c => c.playables.foldl dedupStep s) s
      = (allPlayables cs).foldl dedupStep s := by
  induction cs generalizing s with
  | nil => simp [allPlayables]
  | cons c cs ih =>
    simp only [allPlayables, List.map_cons, List.flatten_cons,
      List.foldl_append, List.foldl_cons]
    rw [ih]
    simp [allPlayables]

theorem collectPlayables_eq_foldl (cs : List Collection) :
    collectPlayables cs = (allPlayables cs).foldl dedupStep ⟨[], [], []⟩ :=
  collectPlayables_eq_foldl_aux cs ⟨[], [], []⟩

/-- C4: deduplication over all input collections yields exactly one
`playable_map` entry per id occurring N ≥ 1 times among the downloadable
playables, the entry's occurrence list has length N (the occurrence count used
for the skip annotation), and the list is exactly the occurrences in input
order — so its head, `playables[0]`, the playable retained as the
metadata/template source, is the first-seen occurrence. -/
theorem dedup_single_item_per_id (cs : List Collection) (i : String) (N : Nat)
    (hN : (occIn i (allPlayables cs)).length = N) (hpos : 1 ≤ N) :
    ∃ l, alookup i (collectPlayables cs).playable_map = some l
      ∧ l = occIn i (allPlayables cs)
      ∧ l.length = N
      ∧ l.head? = (occIn i (allPlayables cs)).head?
      ∧ countKey i (collectPlayables cs).playable_map = 1 := by
  rw [collectPlayables_eq_foldl]
  have hocc : ¬ occIn i (allPlayables cs) = [] := by
    intro h
    rw [h] at hN
    simp at hN
    omega
  have hlk := alookup_foldl_dedupStep (allPlayables cs) ⟨[], [], []⟩ i
  rw [if_neg (by simp [alookup, hocc])] at hlk
  simp only [alookup, Option.getD_none, List.nil_append] at hlk
  refine ⟨occIn i (allPlayables cs), hlk, rfl, hN, rfl, ?_⟩
  have hle := countKey_foldl_dedupStep_le (allPlayables cs) ⟨[], [], []⟩ i
    (by simp [countKey])
  have hne : ¬ countKey i ((allPlayables cs).foldl dedupStep ⟨[], [], []⟩).playable_map = 0 := by
    intro h0
    have := (alookup_eq_none_iff i _).mpr h0
    rw [hlk] at this
    exact Option.noConfusion this
  omega

/-- Witness for C4 at the concrete scenario of the spec: id AAA occurs twice
across two collections, BBB once. -/
theorem dedup_single_item_per_id_witness :
    ∃ l, alookup "AAA" (collectPlayables colls0).playable_map = some l
      ∧ l = occIn "AAA" (allPlayables colls0)
      ∧ l.length = 2
      ∧ l.head? = (occIn "AAA" (allPlayables colls0)).head?
      ∧ countKey "AAA" (collectPlayables colls0).playable_map = 1 :=
  dedup_single_item_per_id colls0 "AAA" 2 (by decide) (by decide)

/-- C7: with the reverse flag set, the items are processed in the exact
reverse of their first-seen order, and the flag does not change the entries
themselves — each id keeps the same occurrence list, hence the same canonical
(first-seen) playable `playables[0]`. -/
theorem reverse_flag_reverses_processing_order (cs : List Collection) :
    itemsToProcess true cs = (itemsToProcess false cs).reverse
    ∧ ∀ e : String × List Playable,
        e ∈ itemsToProcess true cs ↔ e ∈ itemsToProcess false cs := by
  refine ⟨rfl, ?_⟩
  intro e
  simp [itemsToProcess]

/-! ## Identifier-parser theorems (C2, C8) -/

/-- C2: the claim says `parse` fails with `ParseError` whenever the recovered
kind segment is not one of the six recognized kinds; the code instead raises
an uncaught `KeyError` there, because `collection_types[id_type]` raises
`KeyError` and the surrounding handler catches only `ValueError` (its own
"Unsupported content type" message shows the intent).  At the failing input —
a well-formed reference whose kind segment is `user` — parsing raises
`KeyError("user")`, which `App.__init__` does not catch either (no exit code,
the process crashes), instead of the `ParseError` the claim requires. -/
theorem parse_unrecognized_kind_raises_keyError :
    parseLink "https://open.spotify.com/user/0123456789abcdefghijkl"
      = .error (.keyError "user")
    ∧ appExit ["https://open.spotify.com/user/0123456789abcdefghijkl"] = none := by
  constructor <;> rfl

/-- C8 counterexample: the second reference is perfectly parseable on its own,
yet a `ParseError` on the first reference makes the whole `parse` call raise,
so no collection is built for the second reference and the app exits with
code 1 — the remaining references are neither parsed into collections nor
downloaded, contradicting "fatal to that one reference only". -/
theorem parse_error_aborts_whole_run_cex :
    parseLink "https://open.spotify.com/track/0123456789abcdefghijkl"
      = .ok ("track", "0123456789abcdefghijkl")
    ∧ parseLinks ["x?q", "https://open.spotify.com/track/0123456789abcdefghijkl"]
      = .error (.parseError "Could not parse \"x\"")
    ∧ appExit ["x?q", "https://open.spotify.com/track/0123456789abcdefghijkl"]
      = some 1 := by
  refine ⟨rfl, rfl, rfl⟩

/-- C8 amended: a `ParseError` on a malformed reference is fatal to the whole
run, not just to that reference — `parse` raises at the first malformed
reference regardless of what follows, and `App.__init__` exits with code 1,
so none of the remaining references is downloaded. -/
theorem parse_error_fatal_to_whole_run (link : String) (rest : List String)
    (msg : String) (h : parseLink link = .error (.parseError msg)) :
    parseLinks (link :: rest) = .error (.parseError msg)
    ∧ appExit (link :: rest) = some 1 := by
  have h1 : parseLinks (link :: rest) = .error (.parseError msg) := by
    simp [parseLinks, h]
  exact ⟨h1, by simp [appExit, h1]⟩

/-- Witness for the amended C8 at a concrete malformed reference followed by a
well-formed one. -/
theorem parse_error_fatal_to_whole_run_witness :
    parseLinks ["x?q", "https://open.spotify.com/track/0123456789abcdefghijkl"]
      = .error (.parseError "Could not parse \"x\"")
    ∧ appExit ["x?q", "https://open.spotify.com/track/0123456789abcdefghijkl"]
      = some 1 :=
  parse_error_fatal_to_whole_run "x?q"
    ["https://open.spotify.com/track/0123456789abcdefghijkl"]
    "Could not parse \"x\"" rfl

/-! ## Metadata-batcher lemmas and theorem (C6) -/

theorem chunks_length : ∀ l : List α, (chunks l).length = (l.length + 49) / 50
  | [] => by simp [chunks]
  | x :: xs => by
    have ih := chunks_length ((x :: xs).drop 50)
    rw [chunks]
    simp only [List.length_cons, List.length_drop] at ih ⊢
    omega
termination_by l => l.length
decreasing_by simp only [List.length_drop, List.length_cons]; omega

theorem chunks_flatten : ∀ l : List α, (chunks l).flatten = l
  | [] => by simp [chunks]
  | x :: xs => by
    rw [chunks, List.flatten_cons, chunks_flatten ((x :: xs).drop 50)]
    exact List.take_append_drop 50 (x :: xs)
termination_by l => l.length
decreasing_by simp only [List.length_drop, List.length_cons]; omega

theorem chunks_batch_le : ∀ l : List α, ∀ b ∈ chunks l, b.length ≤ 50
  | [] => by simp [chunks]
  | x :: xs => by
    intro b hb
    rw [chunks] at hb
    rcases List.mem_cons.mp hb with h | h
    · subst h
      exact List.length_take_le 50 (x :: xs)
    · exact chunks_batch_le ((x :: xs).drop 50) b h
termination_by l => l.length
decreasing_by simp only [List.length_drop, List.length_cons]; omega

theorem batchMetadata_foldl_aux (remote : String → Option MetaInfo)
    (L : List (List String)) :
    ∀ (m : List (String × MetaInfo)) (cs : List (List String)),
      L.foldl
        (fun acc batch => (mergeResponse acc.1 (batch.map remote), acc.2 ++ [batch]))
        (m, cs)
      = (L.foldl (fun m batch => mergeResponse m (batch.map remote)) m, cs ++ L) := by
  induction L with
  | nil => intro m cs; simp
  | cons b L ih =>
    intro m cs
    simp only [List.foldl_cons, ih]
    simp

theorem batchMetadata_calls (remote : String → Option MetaInfo)
    (ids : List String) :
    (batchMetadata remote ids).2 = chunks ids := by
  unfold batchMetadata
  rw [batchMetadata_foldl_aux]
  simp

theorem mergeResponse_map (remote : String → Option MetaInfo)
    (b : List String) (m : List (String × MetaInfo)) :
    mergeResponse m (b.map remote)
      = b.foldl (fun m j => insertInfo m (remote j)) m := by
  simp [mergeResponse, List.foldl_map]

theorem foldl_flatten_insert (remote : String → Option MetaInfo)
    (L : List (List String)) :
    ∀ m : List (String × MetaInfo),
      L.foldl (fun m b => b.foldl (fun m j => insertInfo m (remote j)) m) m
        = L.flatten.foldl (fun m j => insertInfo m (remote j)) m := by
  induction L with
  | nil => intro m; simp
  | cons b L ih =>
    intro m
    simp only [List.foldl_cons, List.flatten_cons, List.foldl_append, ih]

theorem batchMetadata_map (remote : String → Option MetaInfo)
    (ids : List String) :
    (batchMetadata remote ids).1
      = ids.foldl (fun m j => insertInfo m (remote j)) [] := by
  unfold batchMetadata
  rw [batchMetadata_foldl_aux]
  have hmerge :
      (fun (m : List (String × MetaInfo)) (batch : List String) =>
        mergeResponse m (batch.map remote))
      = fun m batch => batch.foldl (fun m j => insertInfo m (remote j)) m := by
    funext m batch
    exact mergeResponse_map remote batch m
  simp only [hmerge]
  rw [foldl_flatten_insert, chunks_flatten]

theorem alookup_insertInfo_ne (remote : String → Option MetaInfo)
    (hid : ∀ j t, remote j = some t → t.id = j)
    (m : List (String × MetaInfo)) (j i : String) (hji : ¬ j = i) :
    alookup i (insertInfo m (remote j)) = alookup i m := by
  cases hr : remote j with
  | none => simp [insertInfo]
  | some t =>
    have ht : t.id = j := hid j t hr
    simp [insertInfo, alookup_dictInsert, ht, hji]

theorem alookup_foldl_not_mem (remote : String → Option MetaInfo)
    (hid : ∀ j t, remote j = some t → t.id = j) (ids : List String) :
    ∀ (m : List (String × MetaInfo)) (i : String), i ∉ ids →
      alookup i (ids.foldl (fun m j => insertInfo m (remote j)) m) = alookup i m := by
  induction ids with
  | nil => intro m i _; rfl
  | cons j rest ih =>
    intro m i hnm
    rw [List.foldl_cons, ih _ i (fun h => hnm (List.mem_cons_of_mem j h))]
    exact alookup_insertInfo_ne remote hid m j i
      (fun h => hnm (h ▸ List.mem_cons_self j rest))

theorem alookup_fetchFold (remote : String → Option MetaInfo)
    (hid : ∀ j t, remote j = some t → t.id = j) (ids : List String) :
    ∀ (m : List (String × MetaInfo)) (i : String), i ∈ ids → ids.Nodup →
      alookup i (ids.foldl (fun m j => insertInfo m (remote j)) m) =
        match remote i with
        | some t => some t
        | none => alookup i m := by
  induction ids with
  | nil => intro m i hmem; cases hmem
  | cons j rest ih =>
    intro m i hmem hnd
    rw [List.foldl_cons]
    by_cases hji : j = i
    · subst hji
      have hnr : j ∉ rest := (List.nodup_cons.mp hnd).1
      rw [alookup_foldl_not_mem remote hid rest _ j hnr]
      cases hr : remote j with
      | none => simp [insertInfo, hr]
      | some t =>
        have ht : t.id = j := hid j t hr
        simp [insertInfo, hr, alookup_dictInsert, ht]
    · have hir : i ∈ rest := by
        rcases List.mem_cons.mp hmem with h | h
        · exact absurd h.symm hji
        · exact h
      rw [ih _ i hir (List.nodup_cons.mp hnd).2]
      cases hr : remote i with
      | none => exact alookup_insertInfo_ne remote hid m j i hji
      | some t => rfl

/-- C6: for N unique ids of one kind, the batching loop issues exactly
ceil(N/50) = (N + 49) / 50 remote metadata calls (hence at most that many),
the issued batches are the 50-element slices of the id list (each of size at
most 50, concatenating back to the id list), and the merged mapping answers
every requested id with exactly the remote's record for it — a null remote
placeholder stays absent from the mapping.  The hypothesis `hid` states that
the remote returns each record under the requested id, as the batch API
contract guarantees. -/
theorem metadata_batcher_call_bound (remote : String → Option MetaInfo)
    (ids : List String) (hnd : ids.Nodup)
    (hid : ∀ j t, remote j = some t → t.id = j) :
    (batchMetadata remote ids).2.length = (ids.length + 49) / 50
    ∧ (batchMetadata remote ids).2.flatten = ids
    ∧ (∀ b ∈ (batchMetadata remote ids).2, b.length ≤ 50)
    ∧ ∀ i ∈ ids, alookup i (batchMetadata remote ids).1 = remote i := by
  refine ⟨?_, ?_, ?_, ?_⟩
  · rw [batchMetadata_calls, chunks_length]
  · rw [batchMetadata_calls, chunks_flatten]
  · rw [batchMetadata_calls]; exact chunks_batch_le ids
  · intro i hi
    rw [batchMetadata_map, alookup_fetchFold remote hid ids [] i hi hnd]
    cases hr : remote i <;> simp [alookup]

/-- Witness for C6 with two unique ids and a remote that has no record for
either (both are unavailable placeholders). -/
theorem metadata_batcher_call_bound_witness :
    (batchMetadata (fun _ => none) ["a", "b"]).2.length = (["a", "b"].length + 49) / 50
    ∧ (batchMetadata (fun _ => none) ["a", "b"]).2.flatten = ["a", "b"]
    ∧ (∀ b ∈ (batchMetadata (fun _ => none) ["a", "b"]).2, b.length ≤ 50)
    ∧ ∀ i ∈ ["a", "b"],
        alookup i (batchMetadata (fun _ => none) ["a", "b"]).1 = none :=
  metadata_batcher_call_bound (fun _ => none) ["a", "b"] (by decide)
    (fun j t h => Option.noConfusion h)

/-! ## Pipeline lemmas and theorems (C1, C3, C5, C10) -/

theorem lyricsStage_snd_none (cfg : Config) (b : ItemBehavior)
    (h : b.lyricsExc = none ∨ b.lyricsExc = some Exc.fileNotFoundError) :
    (lyricsStage cfg b).2 = none := by
  unfold lyricsStage
  rcases h with h | h <;> rw [h] <;> split
  all_goals first | rfl | (split <;> rfl)

theorem transcodeStage_snd_none (cfg : Config) (b : ItemBehavior)
    (h : b.transcodeExc = none ∨ b.transcodeExc = some Exc.transcodingError) :
    (transcodeStage cfg b).2 = none := by
  unfold transcodeStage
  rcases h with h | h <;> rw [h] <;> split
  all_goals rfl

theorem tagStage_snd_none (cfg : Config) (b : ItemBehavior)
    (h : b.tagExc = none) :
    (tagStage cfg b).2 = none := by
  unfold tagStage
  rw [h]
  split <;> rfl

theorem processItem_completes (cfg : Config) (b : ItemBehavior)
    (h : anticipatedOnly b) :
    ∃ o evs, processItem cfg b = .completed o evs := by
  obtain ⟨hf, hc, hw, hl, ht, hg⟩ := h
  cases hpre : precheck b with
  | some o => exact ⟨o, [], by simp [processItem, hpre]⟩
  | none =>
    rcases hsl : lyricsStage cfg b with ⟨lev, le⟩
    have hle : le = none := by
      have := lyricsStage_snd_none cfg b hl
      rw [hsl] at this
      exact this
    rcases hst : transcodeStage cfg b with ⟨tev, te⟩
    have hte : te = none := by
      have := transcodeStage_snd_none cfg b ht
      rw [hst] at this
      exact this
    rcases hsg : tagStage cfg b with ⟨gev, ge⟩
    have hge : ge = none := by
      have := tagStage_snd_none cfg b hg
      rw [hsg] at this
      exact this
    subst hle hte hge
    rcases hf with hf | hf
    · rcases hc with hc | hc
      · refine ⟨.downloaded,
          [Event.fetchStream b.id, Event.createOutput, Event.writeStream]
            ++ lev ++ tev ++ gev, ?_⟩
        simp [processItem, hpre, hf, hc, hw, hsl, hst, hsg]
      · refine ⟨.existsAtOutput, [Event.fetchStream b.id, Event.createOutput], ?_⟩
        simp [processItem, hpre, hf, hc]
    · refine ⟨.fetchSkipped Exc.runtimeError, [Event.fetchStream b.id], ?_⟩
      simp [processItem, hpre, hf]

/-- C1 counterexample: an `OSError` raised inside the stream-write stage of
the first item is not caught by any handler in the loop, so `download_all`
aborts and the second item — which on its own would complete — is never
processed.  The claim that "no exception raised inside one item's pipeline
aborts the processing of subsequent items" is therefore false on the code. -/
theorem uncaught_write_exception_aborts_run_cex :
    processItem cfg0 itemGood
      = .completed .downloaded [.fetchStream "BBB", .createOutput, .writeStream]
    ∧ runItems cfg0 [itemWriteFail, itemGood] = .aborted [] .osError := by
  constructor <;> rfl

/-- C1 amended: only the failure kinds each stage's handler anticipates — any
exception in the existence precheck, `RuntimeError` in stream fetch,
`FileExistsError` in output creation, `FileNotFoundError` in lyrics save,
`TranscodingError` in transcode — are caught and converted into a reported
outcome; when every item's failures are of those kinds the run finishes with
one outcome per item.  (Exceptions of other kinds, e.g. during the stream
write or the tag write, propagate and abort the rest of the run, as the
counterexample shows.) -/
theorem anticipated_failures_do_not_abort_run (cfg : Config)
    (bs : List ItemBehavior) (h : ∀ b ∈ bs, anticipatedOnly b) :
    ∃ outs, runItems cfg bs = .finished outs ∧ outs.length = bs.length := by
  induction bs with
  | nil => exact ⟨[], rfl, rfl⟩
  | cons b bs ih =>
    obtain ⟨o, evs, hpo⟩ := processItem_completes cfg b (h b (List.mem_cons_self b bs))
    obtain ⟨outs, hr, hlen⟩ := ih fun x hx => h x (List.mem_cons_of_mem b hx)
    exact ⟨(o, evs) :: outs, by simp [runItems, hpo, hr], by simp [hlen]⟩

/-- Witness for the amended C1: a one-item run whose item raises nothing
(trivially only anticipated failures) finishes with one outcome. -/
theorem anticipated_failures_do_not_abort_run_witness :
    ∃ outs, runItems cfg0 [itemGood] = .finished outs
      ∧ outs.length = [itemGood].length :=
  anticipated_failures_do_not_abort_run cfg0 [itemGood] (by
    intro b hb
    simp only [List.mem_singleton] at hb
    subst hb
    exact ⟨Or.inl rfl, Or.inl rfl, rfl, Or.inl rfl, Or.inl rfl, rfl⟩)

/-- C3: when the item's metadata record is present, the precheck block raises
nothing, and the rendered path exists under one of the six supported
extensions, the pipeline terminates at the existence precheck with the
"Already exists" skip (whose message embeds `dupMsg`), performs zero
stream-fetch (audio-key negotiation) calls, and an occurrence count greater
than 1 makes `dupMsg` the "Nx in playlist" annotation. -/
theorem existing_file_skips_before_stream_fetch (cfg : Config)
    (b : ItemBehavior)
    (hty : b.ptype = PlayableType.track ∨ b.ptype = PlayableType.episode)
    (hmeta : b.metadataPresent = true)
    (hexc : b.precheckExc = none)
    (hex : commonExtensions.any b.existsAt = true) :
    processItem cfg b = .completed (.alreadyExists (alreadyExistsMsg b)) []
    ∧ fetchCalls (processItem cfg b) = 0
    ∧ (1 < b.dupCount →
        dupMsg b.dupCount = " (" ++ toString b.dupCount ++ "x in playlist)") := by
  have hpre : precheck b = some (.alreadyExists (alreadyExistsMsg b)) := by
    rcases hty with h | h <;> simp [precheck, h, hmeta, hexc, hex]
  refine ⟨by simp [processItem, hpre], ?_, ?_⟩
  · simp [processItem, hpre, fetchCalls]
  · intro hdup
    simp [dupMsg, hdup]

/-- Witness for C3: a track present on disk as `.ogg`, occurring twice. -/
theorem existing_file_skips_before_stream_fetch_witness :
    processItem cfg0 itemExisting
      = .completed (.alreadyExists (alreadyExistsMsg itemExisting)) []
    ∧ fetchCalls (processItem cfg0 itemExisting) = 0
    ∧ (1 < itemExisting.dupCount →
        dupMsg itemExisting.dupCount
          = " (" ++ toString itemExisting.dupCount ++ "x in playlist)") :=
  existing_file_skips_before_stream_fetch cfg0 itemExisting (Or.inl rfl) rfl rfl
    (by decide)

/-- C5: an item whose id has no batch-metadata record terminates with the
distinct "not available" skip naming the id, performs zero stream-fetch
calls, and inserting such an item anywhere into a run that finishes leaves
the run finishing, with exactly one extra outcome — all other items are still
processed. -/
theorem missing_metadata_skips_item_run_continues (cfg : Config)
    (b : ItemBehavior) (xs ys : List ItemBehavior)
    (outs : List (Outcome × List Event))
    (hty : b.ptype = PlayableType.track ∨ b.ptype = PlayableType.episode)
    (hmeta : b.metadataPresent = false)
    (hrest : runItems cfg (xs ++ ys) = .finished outs) :
    processItem cfg b = .completed (.notAvailable (notAvailableMsg b)) []
    ∧ fetchCalls (processItem cfg b) = 0
    ∧ ∃ outs', runItems cfg (xs ++ b :: ys) = .finished outs'
        ∧ outs'.length = outs.length + 1 := by
  have hpi : processItem cfg b = .completed (.notAvailable (notAvailableMsg b)) [] := by
    rcases hty with h | h <;> simp [processItem, precheck, h, hmeta]
  refine ⟨hpi, by simp [hpi, fetchCalls], ?_⟩
  induction xs generalizing outs with
  | nil =>
    rw [List.nil_append] at hrest
    exact ⟨(.notAvailable (notAvailableMsg b), []) :: outs,
      by simp [runItems, hpi, hrest], by simp⟩
  | cons x xs ih =>
    rw [List.cons_append] at hrest
    cases hx : processItem cfg x with
    | aborted e evs =>
      rw [runItems, hx] at hrest
      exact absurd hrest (by simp)
    | completed o evs =>
      cases hr : runItems cfg (xs ++ ys) with
      | aborted rest e =>
        rw [runItems, hx, hr] at hrest
        exact absurd hrest (by simp)
      | finished outs2 =>
        obtain ⟨outs', h1, h2⟩ := ih outs2 hr
        have houts : outs = (o, evs) :: outs2 := by
          rw [runItems, hx, hr] at hrest
          exact (RunResult.finished.injEq _ _).mp hrest.symm
        refine ⟨(o, evs) :: outs', ?_, ?_⟩
        · rw [List.cons_append, runItems, hx, h1]
        · simp [houts, h2]

/-- Witness for C5: a metadata-less item appended after a well-behaved item;
the run still finishes, now with two outcomes. -/
theorem missing_metadata_skips_item_run_continues_witness :
    processItem cfg0 itemNoMeta
      = .completed (.notAvailable (notAvailableMsg itemNoMeta)) []
    ∧ fetchCalls (processItem cfg0 itemNoMeta) = 0
    ∧ ∃ outs', runItems cfg0 ([itemGood] ++ itemNoMeta :: []) = .finished outs'
        ∧ outs'.length =
            [(Outcome.downloaded,
              [Event.fetchStream "BBB", Event.createOutput, Event.writeStream])].length + 1 :=
  missing_metadata_skips_item_run_continues cfg0 itemNoMeta [itemGood] []
    [(Outcome.downloaded,
      [Event.fetchStream "BBB", Event.createOutput, Event.writeStream])]
    (Or.inl rfl) rfl rfl

/-- C10: an exception raised inside the existence-precheck block (template
rendering or the filesystem existence test) is caught by the block's
`except Exception`, logged as a skip, the item performs zero stream-fetch
calls, and the run continues with the remaining items unchanged. -/
theorem precheck_exception_caught_item_skipped (cfg : Config)
    (b : ItemBehavior) (bs : List ItemBehavior)
    (outs : List (Outcome × List Event)) (e : Exc)
    (hty : b.ptype = PlayableType.track ∨ b.ptype = PlayableType.episode)
    (hmeta : b.metadataPresent = true)
    (hexc : b.precheckExc = some e)
    (hrest : runItems cfg bs = .finished outs) :
    processItem cfg b = .completed (.errorChecking e) []
    ∧ fetchCalls (processItem cfg b) = 0
    ∧ runItems cfg (b :: bs) = .finished ((.errorChecking e, []) :: outs) := by
  have hpi : processItem cfg b = .completed (.errorChecking e) [] := by
    rcases hty with h | h <;> simp [processItem, precheck, h, hmeta, hexc]
  exact ⟨hpi, by simp [hpi, fetchCalls], by simp [runItems, hpi, hrest]⟩

/-- Witness for C10: a precheck `OSError` on the first item of a two-item run;
the second item is still processed. -/
theorem precheck_exception_caught_item_skipped_witness :
    processItem cfg0 itemPrecheckFail
      = .completed (.errorChecking Exc.osError) []
    ∧ fetchCalls (processItem cfg0 itemPrecheckFail) = 0
    ∧ runItems cfg0 (itemPrecheckFail :: [itemGood])
        = .finished ((.errorChecking Exc.osError, []) ::
            [(Outcome.downloaded,
              [Event.fetchStream "BBB", Event.createOutput, Event.writeStream])]) :=
  precheck_exception_caught_item_skipped cfg0 itemPrecheckFail [itemGood]
    [(Outcome.downloaded,
      [Event.fetchStream "BBB", Event.createOutput, Event.writeStream])]
    Exc.osError (Or.inl rfl) rfl rfl rfl

/-! ## Renderer theorem (C9) -/

/-- C9: the existence prechecker's rendering factors through the filename
sanitizer — substituting metadata values, the joined artists string, and the
title into the template equals substituting their `fix_filename` images raw
(both the track and the episode branch) — and no character of a sanitized
value is a path separator or file-system-reserved character. -/
theorem render_substitutions_sanitized (template : String)
    (metadata : List MetadataEntry) (artists trackName episodeName : String) :
    renderTrackTemplate template metadata artists trackName
      = renderTrackTemplateRaw template (metadata.map sanitizeEntry)
          (fix_filename artists) (fix_filename trackName)
    ∧ renderEpisodeTemplate template metadata episodeName
      = renderEpisodeTemplateRaw template (metadata.map sanitizeEntry)
          (fix_filename episodeName)
    ∧ ∀ s : String, ∀ c ∈ (fix_filename s).data, c ∉ reservedChars := by
  have hfold : ∀ t : String,
      (metadata.map sanitizeEntry).foldl
        (fun acc meta =>
          match meta.string with
          | some s => acc.replace ("\x7b" ++ meta.name ++ "\x7d") s
          | none => acc) t
      = metadata.foldl
        (fun acc meta =>
          match meta.string with
          | some s => acc.replace ("\x7b" ++ meta.name ++ "\x7d") (fix_filename s)
          | none => acc) t := by
    intro t
    rw [List.foldl_map]
    congr 1
    funext acc meta
    cases hm : meta.string <;> simp [sanitizeEntry, hm]
  refine ⟨?_, ?_, ?_⟩
  · simp only [renderTrackTemplate, renderTrackTemplateRaw, hfold]
  · simp only [renderEpisodeTemplate, renderEpisodeTemplateRaw, hfold]
  · intro s c hc
    simp only [fix_filename, List.mem_map] at hc
    obtain ⟨a, _, rfl⟩ := hc
    by_cases ha : a ∈ reservedChars
    · simp only [if_pos ha]
      decide
    · simp only [if_neg ha]
      exact ha

/-- Witness for C9: a concrete sanitized character is not reserved. -/
theorem render_substitutions_sanitized_witness : ('a' : Char) ∉ reservedChars :=
  (render_substitutions_sanitized "t" [] "x" "y" "z").2.2 "a:b" 'a' (by decide)

end Zotify
